import Mathlib

/-!
Shallow embedding of `creme/utils/estimator_checks.py`, the conformance
checking harness of the `creme` online-learning library, together with
theorems settling behavioral claims about it.

Modelling conventions:
* A model object is a tree (`Model`): `compose.Pipeline` nodes hold a
  `final_estimator`, `base.Wrapper` nodes hold a wrapped `_model`, and leaf
  estimators are `plain`.  Each node carries `Tags` recording which of the
  base categories (`base.Classifier`, `base.MultiClassifier`,
  `base.Regressor`, `base.MultiOutputRegressor`) its Python class belongs
  to, and whether the object has a `debug_one` attribute.
* The bodies of `fit_one`, `predict_one`, `predict_proba_one`,
  `debug_one`, `repr`, `str`, `_get_tags` and the pickle round trip are not
  part of this file's source; they are abstracted into an `Ops` record.
  Each method receives the current value of its receiver and of the mutable
  arguments and returns the values after the call, so in-place mutation is
  represented by value passing.  `copy.deepcopy` of a value is the value
  itself in this world.
* Python probabilities are embedded as rationals and `math.isclose` with
  its default tolerances is translated on rationals.
* An `assert` failure is the single error constructor `PyError.assertionError`.
-/

namespace EstimatorChecks

/-- Which `creme.base` categories a model object's class belongs to, plus
whether the object has a `debug_one` attribute (`hasattr(model, 'debug_one')`). -/
structure Tags where
  classifier : Bool
  multiClassifier : Bool
  regressor : Bool
  multiOutputRegressor : Bool
  debugOne : Bool
deriving DecidableEq, Repr

/-- Modelled from the spec: the `compose.Pipeline` and `base.Wrapper` class
definitions are not part of this file's source; following the spec's class
hierarchy, a model object is a `compose.Pipeline` (with its
`final_estimator`), a `base.Wrapper` (with its wrapped `_model`), or a plain
estimator. -/
inductive Model where
  | pipeline (tags : Tags) (final_estimator : Model)
  | wrapper (tags : Tags) (_model : Model)
  | plain (tags : Tags)
deriving DecidableEq, Repr

/-- The `Tags` of the object itself (of the outermost node). -/
def Model.tags : Model → Tags
  | .pipeline t _ => t
  | .wrapper t _ => t
  | .plain t => t

/-- `isinstance(model, compose.Pipeline)`. -/
def Model.isPipeline : Model → Bool
  | .pipeline _ _ => true
  | _ => false

/-- `isinstance(model, base.Wrapper)`. -/
def Model.isWrapper : Model → Bool
  | .wrapper _ _ => true
  | _ => false

/-- `isinstance(model, base.Classifier)`. -/
def Model.isClassifier (m : Model) : Bool := m.tags.classifier

/-- `isinstance(model, base.MultiClassifier)`. -/
def Model.isMultiClassifier (m : Model) : Bool := m.tags.multiClassifier

/-- `isinstance(model, base.Regressor)`. -/
def Model.isRegressor (m : Model) : Bool := m.tags.regressor

/-- `isinstance(model, base.MultiOutputRegressor)`. -/
def Model.isMultiOutputRegressor (m : Model) : Bool := m.tags.multiOutputRegressor

/-- `hasattr(model, 'debug_one')`. -/
def Model.hasDebugOne (m : Model) : Bool := m.tags.debugOne

/-- `guess_model`: recursively unwrap a `Pipeline` through its
`final_estimator` and a `Wrapper` through its `_model`; return any other
model unchanged. -/
def guess_model : Model → Model
  | .pipeline _ f => guess_model f
  | .wrapper _ w => guess_model w
  | .plain t => .plain t

/-- The built-in datasets `yield_datasets` can yield: `datasets.Phishing()`,
`stream.iter_sklearn_dataset(sk_datasets.load_iris())`,
`datasets.TrumpApproval()`, and
`stream.iter_sklearn_dataset(sk_datasets.load_linnerud())`. -/
inductive Dataset where
  | phishing
  | iris
  | trumpApproval
  | linnerud
deriving DecidableEq, Repr

/-- `yield_datasets`: unwrap the model with `guess_model`, then yield the
datasets selected by the four (independent, non-exclusive) `isinstance`
tests, in source order.  The source contains the `MultiOutputRegressor`
block twice, so `linnerud` is yielded twice for such a model. -/
def yield_datasets (model : Model) : List Dataset :=
  let m := guess_model model
  (if m.isClassifier then [Dataset.phishing] else [])
  ++ (if m.isMultiClassifier then [Dataset.iris] else [])
  ++ (if m.isRegressor then [Dataset.trumpApproval] else [])
  ++ (if m.isMultiOutputRegressor then [Dataset.linnerud] else [])
  ++ (if m.isMultiOutputRegressor then [Dataset.linnerud] else [])

/-- An `assert` statement failure: the only way a check signals
nonconformance (the source contains no `raise` and no `try`). -/
inductive PyError where
  | assertionError (msg : String)
deriving DecidableEq, Repr

/-- A Python dict key as it appears in `predict_proba_one` output: the
booleans `True`/`False` for binary classifiers, or any other label. -/
inductive PyLabel where
  | pybool (b : Bool)
  | pyval (n : Nat)
deriving DecidableEq, Repr

/-- The object returned by `predict_proba_one`: a dict mapping labels to
probabilities (embedded as rationals), or something that is not a dict
(so that `assert isinstance(y_pred, dict)` is a real test). -/
inductive PredOut where
  | dict (entries : List (PyLabel × ℚ))
  | notDict
deriving DecidableEq

/-- `isinstance(y_pred, dict)`. -/
def PredOut.isDict : PredOut → Bool
  | .dict _ => true
  | .notDict => false

/-- The entries of the dict (`[]` when not a dict). -/
def PredOut.entries : PredOut → List (PyLabel × ℚ)
  | .dict es => es
  | .notDict => []

/-- A Python object tested with `isinstance(·, str)` (the result of
`repr(model)` or `str(model)`). -/
inductive PyStrObj where
  | pystr (s : String)
  | notStr
deriving DecidableEq

/-- `isinstance(·, str)`. -/
def PyStrObj.isStr : PyStrObj → Bool
  | .pystr _ => true
  | .notStr => false

/-- A Python object tested with `isinstance(·, dict)` (the result of
`model._get_tags()`). -/
inductive PyDictObj where
  | pydict
  | notDict
deriving DecidableEq

/-- `isinstance(·, dict)`. -/
def PyDictObj.isDict : PyDictObj → Bool
  | .pydict => true
  | .notDict => false

/-- Values of the objects involved in a `model.fit_one(x, y)` call after it
returns: the returned object, the receiver (which the call may have mutated
in place), and the argument objects `x` and `y`. -/
structure FitRes (X Y : Type) where
  ret : Model
  selfAfter : Model
  x : X
  y : Y

/-- Values after a `classifier.predict_proba_one(x)` call: the returned
prediction, the receiver and the argument `x` after the call. -/
structure ProbaRes (X : Type) where
  out : PredOut
  selfAfter : Model
  x : X

/-- Values after a `model.predict_one(x)` call (its return value is always
discarded by the checks, so only receiver and argument are kept). -/
structure PredictRes (X : Type) where
  selfAfter : Model
  x : X

/-- Values after a `model.debug_one(x)` call (return value discarded). -/
structure DebugRes (X : Type) where
  selfAfter : Model
  x : X

/-- The behaviour of the library code the harness calls but whose bodies are
outside this file: the model methods, the pickle round trip, `repr`, `str`,
`_get_tags`, and class identity.  `X`, `Y` are the value types of the
feature object `x` and target object `y`; `K` is the type of Python
classes. -/
structure Ops (X Y K : Type) where
  classOf : Model → K
  isInstance : Model → K → Bool
  fitOne : Model → X → Y → FitRes X Y
  predictProbaOne : Model → X → ProbaRes X
  predictOne : Model → X → PredictRes X
  debugOne : Model → X → DebugRes X
  pickleRoundTrip : Model → Model
  reprObj : Model → PyStrObj
  strObj : Model → PyStrObj
  getTagsObj : Model → PyDictObj
  datasetPairs : Dataset → List (X × Y)

/-- `math.isclose(a, b)` with the default tolerances
`rel_tol=1e-9, abs_tol=0.0`, translated on rationals:
`|a - b| <= max(rel_tol * max(|a|, |b|), abs_tol)`. -/
def isclose (a b : ℚ) : Bool :=
  |a - b| ≤ max ((1 / 1000000000) * max |a| |b|) 0

variable {X Y K : Type} [DecidableEq X] [DecidableEq Y]

/-- The loop of `check_fit_one`: take deep copies `xx, yy` of `x, y`, rebind
`model` to the value returned by `fit_one`, assert it is an instance of the
initial class `klass`, and assert `x == xx` and `y == yy`. -/
def fitOneLoop (ops : Ops X Y K) (klass : K) : Model → List (X × Y) → Except PyError Unit
  | _, [] => .ok ()
  | model, (x, y) :: rest =>
    let xx := x
    let yy := y
    let r := ops.fitOne model x y
    if ops.isInstance r.ret klass then
      if r.x = xx then
        if r.y = yy then
          fitOneLoop ops klass r.ret rest
        else .error (.assertionError "y == yy")
      else .error (.assertionError "x == xx")
    else .error (.assertionError "isinstance(model, klass)")

/-- `check_fit_one`: capture `model.__class__` and run the loop over the
dataset. -/
def check_fit_one (ops : Ops X Y K) (model : Model) (dataset : List (X × Y)) :
    Except PyError Unit :=
  fitOneLoop ops (ops.classOf model) model dataset

/-- The loop of `check_predict_proba_one`: deep-copy `x, y`, rebind the
classifier to the value `fit_one` returns, call `predict_proba_one` on the
(possibly mutated) `x`, assert the prediction is a dict, that its values sum
close to 1 and each lies in `[0, 1]`, and that `x` and `y` are unchanged;
the next iteration sees the receiver value after `predict_proba_one`. -/
def predictProbaLoop (ops : Ops X Y K) : Model → List (X × Y) → Except PyError Unit
  | _, [] => .ok ()
  | classifier, (x, y) :: rest =>
    let xx := x
    let yy := y
    let f := ops.fitOne classifier x y
    let p := ops.predictProbaOne f.ret f.x
    if p.out.isDict then
      if isclose ((p.out.entries.map Prod.snd).sum) 1 then
        if (p.out.entries.all fun e => decide ((0 : ℚ) ≤ e.2) && decide (e.2 ≤ (1 : ℚ))) then
          if p.x = xx then
            if f.y = yy then
              predictProbaLoop ops p.selfAfter rest
            else .error (.assertionError "y == yy")
          else .error (.assertionError "x == xx")
        else .error (.assertionError "0. <= proba <= 1.")
      else .error (.assertionError "math.isclose(sum(y_pred.values()), 1.)")
    else .error (.assertionError "isinstance(y_pred, dict)")

/-- `check_predict_proba_one`. -/
def check_predict_proba_one (ops : Ops X Y K) (classifier : Model)
    (dataset : List (X × Y)) : Except PyError Unit :=
  predictProbaLoop ops classifier dataset

/-- The loop of `check_predict_proba_one_binary`: predict before fitting,
rebind the classifier to the value `fit_one` returns, and assert the
prediction has length 2 and contains both keys `True` and `False`;
the next iteration sees the receiver value after `fit_one`
(`predict_proba_one` is called first, on the incoming value). -/
def binaryLoop (ops : Ops X Y K) : Model → List (X × Y) → Except PyError Unit
  | _, [] => .ok ()
  | classifier, (x, y) :: rest =>
    let p := ops.predictProbaOne classifier x
    let f := ops.fitOne p.selfAfter p.x y
    if p.out.entries.length = 2 then
      if p.out.entries.any (fun e => decide (e.1 = PyLabel.pybool true)) then
        if p.out.entries.any (fun e => decide (e.1 = PyLabel.pybool false)) then
          binaryLoop ops f.ret rest
        else .error (.assertionError "False in y_pred")
      else .error (.assertionError "True in y_pred")
    else .error (.assertionError "len(y_pred) == 2")

/-- `check_predict_proba_one_binary`. -/
def check_predict_proba_one_binary (ops : Ops X Y K) (classifier : Model)
    (dataset : List (X × Y)) : Except PyError Unit :=
  binaryLoop ops classifier dataset

/-- `check_debug_one`: on the first dataset element only (the loop breaks),
call `debug_one`, `fit_one` and `debug_one` again, without rebinding and
with no asserts. -/
def check_debug_one (ops : Ops X Y K) (model : Model) (dataset : List (X × Y)) :
    Except PyError Unit :=
  match dataset with
  | [] => .ok ()
  | (x, y) :: _ =>
    let d1 := ops.debugOne model x
    let f := ops.fitOne d1.selfAfter d1.x y
    let _ := ops.debugOne f.selfAfter f.x
    .ok ()

/-- The loop of `check_pickling`: call `predict_one(x)` then `fit_one(x, y)`
on each pair without rebinding `model`, so only the in-place mutations of
the receiver are carried over. -/
def picklingLoop (ops : Ops X Y K) : Model → List (X × Y) → Model
  | model, [] => model
  | model, (x, y) :: rest =>
    let p := ops.predictOne model x
    let f := ops.fitOne p.selfAfter p.x y
    picklingLoop ops f.selfAfter rest

/-- `check_pickling`: assert `pickle.loads(pickle.dumps(model))` is an
instance of `model.__class__`, run the predict/fit loop over the dataset,
and assert the round trip again on the resulting model value. -/
def check_pickling (ops : Ops X Y K) (model : Model) (dataset : List (X × Y)) :
    Except PyError Unit :=
  if ops.isInstance (ops.pickleRoundTrip model) (ops.classOf model) then
    let m := picklingLoop ops model dataset
    if ops.isInstance (ops.pickleRoundTrip m) (ops.classOf m) then .ok ()
    else .error (.assertionError "isinstance(pickle.loads(pickle.dumps(model)), model.__class__)")
  else .error (.assertionError "isinstance(pickle.loads(pickle.dumps(model)), model.__class__)")

/-- `check_repr`: `assert isinstance(repr(model), str)`. -/
def check_repr (ops : Ops X Y K) (model : Model) : Except PyError Unit :=
  if (ops.reprObj model).isStr then .ok ()
  else .error (.assertionError "isinstance(repr(model), str)")

/-- `check_str`: `assert isinstance(str(model), str)`. -/
def check_str (ops : Ops X Y K) (model : Model) : Except PyError Unit :=
  if (ops.strObj model).isStr then .ok ()
  else .error (.assertionError "isinstance(str(model), str)")

/-- `check_get_tags`: `assert isinstance(model._get_tags(), dict)`. -/
def check_get_tags (ops : Ops X Y K) (model : Model) : Except PyError Unit :=
  if (ops.getTagsObj model).isDict then .ok ()
  else .error (.assertionError "isinstance(model._get_tags(), dict)")

/-- A check as yielded by `yield_checks`: a function object with a `__name__`
(set by `functools.update_wrapper`) that `check_estimator` calls on a single
model argument. -/
structure NamedCheck where
  name : String
  run : Model → Except PyError Unit

/-- A dataset-taking check function as passed to `with_dataset`: its
`__name__` and its body. -/
structure DatasetMethod (X Y : Type) where
  name : String
  body : Model → List (X × Y) → Except PyError Unit

/-- The `check_fit_one` function object with its name. -/
def fitOneMethod (ops : Ops X Y K) : DatasetMethod X Y :=
  ⟨"check_fit_one", check_fit_one ops⟩

/-- The `check_pickling` function object with its name. -/
def picklingMethod (ops : Ops X Y K) : DatasetMethod X Y :=
  ⟨"check_pickling", check_pickling ops⟩

/-- The `check_debug_one` function object with its name. -/
def debugOneMethod (ops : Ops X Y K) : DatasetMethod X Y :=
  ⟨"check_debug_one", check_debug_one ops⟩

/-- The `check_predict_proba_one` function object with its name. -/
def probaOneMethod (ops : Ops X Y K) : DatasetMethod X Y :=
  ⟨"check_predict_proba_one", check_predict_proba_one ops⟩

/-- The `check_predict_proba_one_binary` function object with its name. -/
def probaOneBinaryMethod (ops : Ops X Y K) : DatasetMethod X Y :=
  ⟨"check_predict_proba_one_binary", check_predict_proba_one_binary ops⟩

/-- The inner `with_dataset` helper of `yield_checks`, exactly as written in
the source: it builds `functools.partial(check_fit_one, dataset=dataset)` —
the body is always `check_fit_one`, regardless of `method` — and
`functools.update_wrapper` then copies `method`'s name onto it. -/
def with_dataset (ops : Ops X Y K) (dataset : List (X × Y))
    (method : DatasetMethod X Y) : NamedCheck :=
  ⟨method.name, fun model => check_fit_one ops model dataset⟩

/-- The named check `yield_checks` yields first: `check_repr`. -/
def ncRepr (ops : Ops X Y K) : NamedCheck := ⟨"check_repr", check_repr ops⟩

/-- The named check `yield_checks` yields second: `check_str`. -/
def ncStr (ops : Ops X Y K) : NamedCheck := ⟨"check_str", check_str ops⟩

/-- The named check `yield_checks` yields third: `check_get_tags`. -/
def ncGetTags (ops : Ops X Y K) : NamedCheck := ⟨"check_get_tags", check_get_tags ops⟩

/-- The checks yielded inside one iteration of the dataset loop of
`yield_checks`, for the current value of the loop's `model` variable:
`with_dataset(check_fit_one)`, `with_dataset(check_pickling)`,
`with_dataset(check_debug_one)` when the model has a `debug_one` attribute;
then, after `model = guess_model(model)`, `with_dataset(check_predict_proba_one)`
when the unwrapped model is a `Classifier` and
`with_dataset(check_predict_proba_one_binary)` when it is not a
`MultiClassifier`. -/
def checksForDataset (ops : Ops X Y K) (model : Model) (dataset : List (X × Y)) :
    List NamedCheck :=
  [with_dataset ops dataset (fitOneMethod ops),
   with_dataset ops dataset (picklingMethod ops)]
  ++ (if model.hasDebugOne then [with_dataset ops dataset (debugOneMethod ops)] else [])
  ++ (let g := guess_model model
      (if g.isClassifier then [with_dataset ops dataset (probaOneMethod ops)] else [])
      ++ (if !g.isMultiClassifier then
            [with_dataset ops dataset (probaOneBinaryMethod ops)] else []))

/-- The dataset loop of `yield_checks`; the rebinding
`model = guess_model(model)` inside the loop body makes later iterations see
the unwrapped model. -/
def yieldChecksLoop (ops : Ops X Y K) : Model → List Dataset → List NamedCheck
  | _, [] => []
  | model, d :: rest =>
    checksForDataset ops model (ops.datasetPairs d)
    ++ yieldChecksLoop ops (guess_model model) rest

/-- `yield_checks`: `check_repr`, `check_str` and `check_get_tags` for every
model, then the dataset-bound checks for each dataset of `yield_datasets`. -/
def yield_checks (ops : Ops X Y K) (model : Model) : List NamedCheck :=
  [ncRepr ops, ncStr ops, ncGetTags ops]
  ++ yieldChecksLoop ops model (yield_datasets model)

/-- Run a list of checks in order on (a deep copy of) the model value,
stopping at the first failing assertion, whose error propagates uncaught. -/
def runChecks : List NamedCheck → Model → Except PyError Unit
  | [], _ => .ok ()
  | c :: rest, model =>
    match c.run model with
    | .ok _ => runChecks rest model
    | .error e => .error e

/-- `check_estimator`: run every check of `yield_checks` on a deep copy of
the model (a deep copy of a value is the value itself here; the object-level
copying is treated separately by `checkEstimatorObjects`). -/
def check_estimator (ops : Ops X Y K) (model : Model) : Except PyError Unit :=
  runChecks (yield_checks ops model) model

/-- Object-level embedding of the loop of `check_estimator`
(`for check in yield_checks(model): check(copy.deepcopy(model))`), used for
the framing claim.  The heap is a list of model values indexed by object
address; `addr` is the address of the caller's model object.  Each check is
abstracted to the transformation it applies in place to the one object it
receives.  For each check, `copy.deepcopy(model)` allocates a fresh object
(at address `heap.length`) holding the value currently at `addr`, and the
check runs on that fresh object.  Returns the final heap, the addresses
passed to the checks, and the values the fresh copies were created from. -/
def checkEstimatorObjects (defaultTags : Tags) :
    List (Model → Model) → List Model → Nat → List Model × List Nat × List Model
  | [], heap, _ => (heap, [], [])
  | check :: rest, heap, addr =>
    let v := heap.getD addr (Model.plain defaultTags)
    let heap2 := heap ++ [check v]
    let r := checkEstimatorObjects defaultTags rest heap2 addr
    (r.1, heap.length :: r.2.1, v :: r.2.2)

end EstimatorChecks

namespace EstimatorChecks

/-- C5. Unwrapping respects the class hierarchy: `guess_model` recurses into
the `final_estimator` of a `Pipeline` and into the `_model` of a `Wrapper`,
returns any other model unchanged, and consequently its result is never
itself a `Pipeline` or a `Wrapper`. -/
theorem guess_model_unwraps :
    (∀ t f, guess_model (Model.pipeline t f) = guess_model f)
    ∧ (∀ t w, guess_model (Model.wrapper t w) = guess_model w)
    ∧ (∀ t, guess_model (Model.plain t) = Model.plain t)
    ∧ (∀ m : Model, (guess_model m).isPipeline = false
        ∧ (guess_model m).isWrapper = false) := by
  refine ⟨fun t f => rfl, fun t w => rfl, fun t => rfl, fun m => ?_⟩
  induction m with
  | pipeline t f ih => simpa [guess_model] using ih
  | wrapper t w ih => simpa [guess_model] using ih
  | plain t => simp [guess_model, Model.isPipeline, Model.isWrapper]

/-- A model whose (unwrapped) class belongs only to the
`MultiOutputRegressor` category. -/
def multiOutOnly : Model :=
  Model.plain ⟨false, false, false, true, false⟩

/-- C6 counterexample: for a model that belongs exactly to the
`MultiOutputRegressor` base category, `yield_datasets` yields the linnerud
stream twice, not once, refuting "exactly one built-in dataset per base
category". -/
theorem yield_datasets_linnerud_twice :
    (guess_model multiOutOnly).isMultiOutputRegressor = true
    ∧ (guess_model multiOutOnly).isClassifier = false
    ∧ (guess_model multiOutOnly).isMultiClassifier = false
    ∧ (guess_model multiOutOnly).isRegressor = false
    ∧ yield_datasets multiOutOnly = [Dataset.linnerud, Dataset.linnerud]
    ∧ ¬ (yield_datasets multiOutOnly).count Dataset.linnerud = 1 := by
  decide

/-- The list of datasets selected by the four `isinstance` tests, as a
function of the unwrapped model's tags (helper for reasoning about
`yield_datasets`). -/
def datasetsOfTags (t : Tags) : List Dataset :=
  (if t.classifier then [Dataset.phishing] else [])
  ++ (if t.multiClassifier then [Dataset.iris] else [])
  ++ (if t.regressor then [Dataset.trumpApproval] else [])
  ++ (if t.multiOutputRegressor then [Dataset.linnerud] else [])
  ++ (if t.multiOutputRegressor then [Dataset.linnerud] else [])

theorem yield_datasets_eq_datasetsOfTags (model : Model) :
    yield_datasets model = datasetsOfTags (guess_model model).tags := rfl

theorem datasetsOfTags_counts (t : Tags) :
    (datasetsOfTags t).count Dataset.phishing = (if t.classifier then 1 else 0)
    ∧ (datasetsOfTags t).count Dataset.iris = (if t.multiClassifier then 1 else 0)
    ∧ (datasetsOfTags t).count Dataset.trumpApproval = (if t.regressor then 1 else 0)
    ∧ (datasetsOfTags t).count Dataset.linnerud
      = (if t.multiOutputRegressor then 2 else 0)
    ∧ (datasetsOfTags t).length
      = (if t.classifier then 1 else 0) + (if t.multiClassifier then 1 else 0)
        + (if t.regressor then 1 else 0)
        + (if t.multiOutputRegressor then 2 else 0) := by
  rcases t with ⟨c, mc, r, mor, d⟩
  rcases c <;> rcases mc <;> rcases r <;> rcases mor <;> rcases d <;> decide

/-- C6 amended: `yield_datasets` yields exactly one dataset per base
category of the unwrapped model — `Phishing` for a `Classifier`, the iris
stream for a `MultiClassifier`, `TrumpApproval` for a `Regressor` — except
that the linnerud stream is yielded twice for a `MultiOutputRegressor`;
the total number of yielded datasets is the corresponding sum, so a model
in none of these categories gets nothing. -/
theorem yield_datasets_counts (model : Model) :
    (yield_datasets model).count Dataset.phishing
      = (if (guess_model model).isClassifier then 1 else 0)
    ∧ (yield_datasets model).count Dataset.iris
      = (if (guess_model model).isMultiClassifier then 1 else 0)
    ∧ (yield_datasets model).count Dataset.trumpApproval
      = (if (guess_model model).isRegressor then 1 else 0)
    ∧ (yield_datasets model).count Dataset.linnerud
      = (if (guess_model model).isMultiOutputRegressor then 2 else 0)
    ∧ (yield_datasets model).length
      = (if (guess_model model).isClassifier then 1 else 0)
        + (if (guess_model model).isMultiClassifier then 1 else 0)
        + (if (guess_model model).isRegressor then 1 else 0)
        + (if (guess_model model).isMultiOutputRegressor then 2 else 0) := by
  rw [yield_datasets_eq_datasetsOfTags]
  simp only [Model.isClassifier, Model.isMultiClassifier, Model.isRegressor,
    Model.isMultiOutputRegressor]
  exact datasetsOfTags_counts (guess_model model).tags

variable {X Y K : Type} [DecidableEq X] [DecidableEq Y]

/-- Purity of the `fit_one` calls made by `check_fit_one` (the claim's
property): at every pair of the dataset, the value returned by `fit_one` is
an instance of the initial class, and the argument objects are unchanged
(equal to deep copies taken before the call). -/
def fitOnePure (ops : Ops X Y K) (klass : K) : Model → List (X × Y) → Bool
  | _, [] => true
  | model, (x, y) :: rest =>
    let r := ops.fitOne model x y
    ops.isInstance r.ret klass && decide (r.x = x) && decide (r.y = y)
      && fitOnePure ops klass r.ret rest

/-- The unchanged-input property around the `fit_one` and
`predict_proba_one` calls made by `check_predict_proba_one`: at every pair,
`x` and `y` are unchanged once both calls have returned. -/
def probaCallsPure (ops : Ops X Y K) : Model → List (X × Y) → Bool
  | _, [] => true
  | classifier, (x, y) :: rest =>
    let f := ops.fitOne classifier x y
    let p := ops.predictProbaOne f.ret f.x
    decide (p.x = x) && decide (f.y = y) && probaCallsPure ops p.selfAfter rest

/-- Probability coherence of the predictions seen by
`check_predict_proba_one`: at every pair, `predict_proba_one` (called after
`fit_one`) returns a dict, its values sum to a number close to 1, and each
value lies in the closed interval `[0, 1]`. -/
def probaCoherent (ops : Ops X Y K) : Model → List (X × Y) → Bool
  | _, [] => true
  | classifier, (x, y) :: rest =>
    let f := ops.fitOne classifier x y
    let p := ops.predictProbaOne f.ret f.x
    p.out.isDict && isclose ((p.out.entries.map Prod.snd).sum) 1
      && (p.out.entries.all fun e => decide ((0 : ℚ) ≤ e.2) && decide (e.2 ≤ (1 : ℚ)))
      && probaCoherent ops p.selfAfter rest

theorem fitOneLoop_ok_pure (ops : Ops X Y K) (klass : K) :
    ∀ (ds : List (X × Y)) (model : Model),
      fitOneLoop ops klass model ds = .ok () → fitOnePure ops klass model ds = true := by
  intro ds
  induction ds with
  | nil => intro model _; rfl
  | cons xy rest ih =>
    obtain ⟨x, y⟩ := xy
    intro model h
    simp only [fitOneLoop] at h
    simp only [fitOnePure]
    split at h
    next ha =>
      split at h
      next hb =>
        split at h
        next hc =>
          simp only [Bool.and_eq_true, decide_eq_true_eq]
          exact ⟨⟨⟨ha, hb⟩, hc⟩, ih _ h⟩
        next => exact absurd h (by simp)
      next => exact absurd h (by simp)
    next => exact absurd h (by simp)

theorem predictProbaLoop_ok_pure (ops : Ops X Y K) :
    ∀ (ds : List (X × Y)) (classifier : Model),
      predictProbaLoop ops classifier ds = .ok ()
      → probaCallsPure ops classifier ds = true := by
  intro ds
  induction ds with
  | nil => intro c _; rfl
  | cons xy rest ih =>
    obtain ⟨x, y⟩ := xy
    intro c h
    simp only [predictProbaLoop] at h
    simp only [probaCallsPure]
    split at h
    next =>
      split at h
      next =>
        split at h
        next =>
          split at h
          next hd =>
            split at h
            next he =>
              simp only [Bool.and_eq_true, decide_eq_true_eq]
              exact ⟨⟨hd, he⟩, ih _ h⟩
            next => exact absurd h (by simp)
          next => exact absurd h (by simp)
        next => exact absurd h (by simp)
      next => exact absurd h (by simp)
    next => exact absurd h (by simp)

theorem predictProbaLoop_ok_coherent (ops : Ops X Y K) :
    ∀ (ds : List (X × Y)) (classifier : Model),
      predictProbaLoop ops classifier ds = .ok ()
      → probaCoherent ops classifier ds = true := by
  intro ds
  induction ds with
  | nil => intro c _; rfl
  | cons xy rest ih =>
    obtain ⟨x, y⟩ := xy
    intro c h
    simp only [predictProbaLoop] at h
    simp only [probaCoherent]
    split at h
    next ha =>
      split at h
      next hb =>
        split at h
        next hc =>
          split at h
          next =>
            split at h
            next =>
              simp only [Bool.and_eq_true]
              exact ⟨⟨⟨ha, hb⟩, hc⟩, ih _ h⟩
            next => exact absurd h (by simp)
          next => exact absurd h (by simp)
        next => exact absurd h (by simp)
      next => exact absurd h (by simp)
    next => exact absurd h (by simp)

/-- C1. Purity of update: when `check_fit_one` raises no assertion, every
`fit_one` call along the dataset left `x` and `y` equal to the deep copies
taken before the call and returned an instance of the model's original
class; and when `check_predict_proba_one` raises no assertion, the same
unchanged-input property holds around its `fit_one` and `predict_proba_one`
calls. -/
theorem check_fit_one_purity (ops : Ops X Y K) (model classifier : Model)
    (ds1 ds2 : List (X × Y))
    (h1 : check_fit_one ops model ds1 = .ok ())
    (h2 : check_predict_proba_one ops classifier ds2 = .ok ()) :
    fitOnePure ops (ops.classOf model) model ds1 = true
    ∧ probaCallsPure ops classifier ds2 = true :=
  ⟨fitOneLoop_ok_pure ops (ops.classOf model) ds1 model h1,
   predictProbaLoop_ok_pure ops ds2 classifier h2⟩

/-- C2. Probability coherence: when `check_predict_proba_one` raises no
assertion, every prediction `predict_proba_one(x)` made after `fit_one(x, y)`
along the dataset is a dict whose values sum to a number close to 1 and
each of whose values lies in `[0, 1]`. -/
theorem check_predict_proba_one_coherent (ops : Ops X Y K) (classifier : Model)
    (ds : List (X × Y))
    (h : check_predict_proba_one ops classifier ds = .ok ()) :
    probaCoherent ops classifier ds = true :=
  predictProbaLoop_ok_coherent ops ds classifier h

/-- C4. (De)serializability round trip: when `check_pickling` raises no
assertion, `pickle.loads(pickle.dumps(model))` is an instance of the model's
class both before any fitting and again for the model value reached after
calling `predict_one` and `fit_one` on every pair of the dataset. -/
theorem check_pickling_roundtrip (ops : Ops X Y K) (model : Model)
    (ds : List (X × Y)) (h : check_pickling ops model ds = .ok ()) :
    ops.isInstance (ops.pickleRoundTrip model) (ops.classOf model) = true
    ∧ ops.isInstance (ops.pickleRoundTrip (picklingLoop ops model ds))
        (ops.classOf (picklingLoop ops model ds)) = true := by
  simp only [check_pickling] at h
  split at h
  · split at h
    · simp_all
    · exact absurd h (by simp)
  · exact absurd h (by simp)

/-- Tags of the concrete example model: a plain binary classifier. -/
def egTags : Tags := ⟨true, false, false, false, false⟩

/-- A concrete example model used to instantiate the theorems. -/
def egModel : Model := Model.plain egTags

/-- A concrete, well-behaved instantiation of the abstracted library
behaviour: methods mutate nothing, `fit_one` returns its receiver,
`predict_proba_one` returns the dict `{True: 1/2, False: 1/2}`, every object
is an instance of every class, and every dataset holds the single pair
`(1, 2)`. -/
def egOps : Ops Nat Nat Nat :=
  ⟨fun _ => 0,
   fun _ _ => true,
   fun m x y => ⟨m, m, x, y⟩,
   fun m x => ⟨PredOut.dict [(PyLabel.pybool true, 1/2), (PyLabel.pybool false, 1/2)], m, x⟩,
   fun m x => ⟨m, x⟩,
   fun m x => ⟨m, x⟩,
   fun m => m,
   fun _ => PyStrObj.pystr "model",
   fun _ => PyStrObj.pystr "model",
   fun _ => PyDictObj.pydict,
   fun _ => [(1, 2)]⟩

theorem egProbaOk : check_predict_proba_one egOps egModel [(1, 2)] = .ok () := by
  simp [check_predict_proba_one, predictProbaLoop, egOps, PredOut.isDict, PredOut.entries,
    isclose, sub_self, abs_zero, le_max_iff]
  norm_num

theorem check_fit_one_purity_witness :
    fitOnePure egOps (egOps.classOf egModel) egModel [(1, 2)] = true
    ∧ probaCallsPure egOps egModel [(1, 2)] = true :=
  check_fit_one_purity egOps egModel egModel [(1, 2)] [(1, 2)] rfl egProbaOk

theorem check_predict_proba_one_coherent_witness :
    probaCoherent egOps egModel [(1, 2)] = true :=
  check_predict_proba_one_coherent egOps egModel [(1, 2)] egProbaOk

theorem mem_ite_singleton {α : Type} {p : Prop} [Decidable p] {x c : α}
    (h : c ∈ (if p then [x] else [])) : c = x := by
  split at h <;> simp_all

theorem mem_checksForDataset {ops : Ops X Y K} {model : Model}
    {dsl : List (X × Y)} {c : NamedCheck}
    (hc : c ∈ checksForDataset ops model dsl) :
    ∃ method, c = with_dataset ops dsl method := by
  simp only [checksForDataset, List.mem_append, List.mem_cons, List.not_mem_nil,
    or_false] at hc
  rcases hc with ((h | h) | h) | (h | h)
  · exact ⟨fitOneMethod ops, h⟩
  · exact ⟨picklingMethod ops, h⟩
  · exact ⟨debugOneMethod ops, mem_ite_singleton h⟩
  · exact ⟨probaOneMethod ops, mem_ite_singleton h⟩
  · exact ⟨probaOneBinaryMethod ops, mem_ite_singleton h⟩

theorem mem_yieldChecksLoop {ops : Ops X Y K} {c : NamedCheck} :
    ∀ {l : List Dataset} {model : Model}, c ∈ yieldChecksLoop ops model l
    → ∃ dsl method, c = with_dataset ops dsl method := by
  intro l
  induction l with
  | nil => intro model h; simp [yieldChecksLoop] at h
  | cons d rest ih =>
    intro model h
    simp only [yieldChecksLoop, List.mem_append] at h
    rcases h with h | h
    · obtain ⟨m, hm⟩ := mem_checksForDataset h
      exact ⟨_, m, hm⟩
    · exact ih h

/-- C3. The `with_dataset` helper binds the body of `check_fit_one` to the
dataset no matter which method it is handed — only the name (and metadata)
comes from the method — so every check `yield_checks` yields either is one
of the three dataset-free checks or runs `check_fit_one` on some dataset:
the bodies of `check_pickling`, `check_debug_one`, `check_predict_proba_one`
and `check_predict_proba_one_binary` are never executed by
`check_estimator`. -/
theorem with_dataset_runs_check_fit_one (ops : Ops X Y K)
    (dsl : List (X × Y)) (method : DatasetMethod X Y) (model : Model)
    (c : NamedCheck) (hc : c ∈ yield_checks ops model) :
    (with_dataset ops dsl method).name = method.name
    ∧ (with_dataset ops dsl method).run = (fun m => check_fit_one ops m dsl)
    ∧ (c.run = check_repr ops ∨ c.run = check_str ops ∨ c.run = check_get_tags ops
        ∨ ∃ d, c.run = fun m => check_fit_one ops m d) := by
  refine ⟨rfl, rfl, ?_⟩
  simp only [yield_checks, List.mem_append, List.mem_cons, List.not_mem_nil,
    or_false] at hc
  rcases hc with (h | h | h) | h
  · exact Or.inl (by rw [h]; rfl)
  · exact Or.inr (Or.inl (by rw [h]; rfl))
  · exact Or.inr (Or.inr (Or.inl (by rw [h]; rfl)))
  · obtain ⟨dsl2, m2, hm⟩ := mem_yieldChecksLoop h
    exact Or.inr (Or.inr (Or.inr ⟨dsl2, by rw [hm]; rfl⟩))

theorem with_dataset_runs_check_fit_one_witness :
    (with_dataset egOps [(1, 2)] (picklingMethod egOps)).name
      = (picklingMethod egOps).name
    ∧ (with_dataset egOps [(1, 2)] (picklingMethod egOps)).run
      = (fun m => check_fit_one egOps m [(1, 2)])
    ∧ ((ncRepr egOps).run = check_repr egOps ∨ (ncRepr egOps).run = check_str egOps
        ∨ (ncRepr egOps).run = check_get_tags egOps
        ∨ ∃ d, (ncRepr egOps).run = fun m => check_fit_one egOps m d) :=
  with_dataset_runs_check_fit_one egOps [(1, 2)] (picklingMethod egOps) egModel
    (ncRepr egOps) (by simp [yield_checks])

theorem runChecks_ok_iff (model : Model) :
    ∀ l : List NamedCheck,
      (runChecks l model = .ok () ↔ ∀ c ∈ l, c.run model = .ok ())
      ∧ ∀ e, runChecks l model = .error e → ∃ c ∈ l, c.run model = .error e := by
  intro l
  induction l with
  | nil => refine ⟨by simp [runChecks], by simp [runChecks]⟩
  | cons c rest ih =>
    refine ⟨⟨?_, ?_⟩, ?_⟩
    · intro h c2 hc2
      simp only [runChecks] at h
      split at h
      next u heq =>
        rw [List.mem_cons] at hc2
        rcases hc2 with rfl | hc2
        · cases u
          exact heq
        · exact (ih.1).mp h c2 hc2
      next e heq => exact absurd h (by simp)
    · intro h
      simp only [runChecks]
      split
      next u heq => exact (ih.1).mpr fun c2 hc2 => h c2 (List.mem_cons_of_mem c hc2)
      next e heq =>
        have := h c (List.mem_cons_self c rest)
        rw [heq] at this
        exact absurd this (by simp)
    · intro e h
      simp only [runChecks] at h
      split at h
      next u heq =>
        obtain ⟨c2, hc2, hr⟩ := ih.2 e h
        exact ⟨c2, List.mem_cons_of_mem c hc2, hr⟩
      next e2 heq =>
        cases h
        exact ⟨c, List.mem_cons_self c rest, heq⟩

/-- C7. Failure reporting: `check_estimator` succeeds exactly when every
check of `yield_checks` succeeds on (a deep copy of) the model; when it
fails, the error is the assertion error of one of those checks, propagated
as is — no recovery, retry, or error collection — and every error the
embedding can signal is a plain assertion failure. -/
theorem check_estimator_assert_only (ops : Ops X Y K) (model : Model) :
    (check_estimator ops model = .ok ()
      ↔ ∀ c ∈ yield_checks ops model, c.run model = .ok ())
    ∧ (∀ e, check_estimator ops model = .error e
        → (∃ c ∈ yield_checks ops model, c.run model = .error e)
          ∧ ∃ s, e = PyError.assertionError s) := by
  have h := runChecks_ok_iff model (yield_checks ops model)
  refine ⟨h.1, fun e he => ⟨h.2 e he, ?_⟩⟩
  rcases e with ⟨s⟩
  exact ⟨s, rfl⟩

/-- The keys-of-a-binary-prediction property `check_predict_proba_one_binary`
asserts: at every pair, the prediction made before fitting has exactly two
entries and contains both keys `True` and `False`. -/
def binaryKeys (ops : Ops X Y K) : Model → List (X × Y) → Bool
  | _, [] => true
  | classifier, (x, y) :: rest =>
    let p := ops.predictProbaOne classifier x
    let f := ops.fitOne p.selfAfter p.x y
    decide (p.out.entries.length = 2)
      && (p.out.entries.any fun e => decide (e.1 = PyLabel.pybool true))
      && (p.out.entries.any fun e => decide (e.1 = PyLabel.pybool false))
      && binaryKeys ops f.ret rest

theorem binaryLoop_ok_keys (ops : Ops X Y K) :
    ∀ (ds : List (X × Y)) (classifier : Model),
      binaryLoop ops classifier ds = .ok () → binaryKeys ops classifier ds = true := by
  intro ds
  induction ds with
  | nil => intro c _; rfl
  | cons xy rest ih =>
    obtain ⟨x, y⟩ := xy
    intro c h
    simp only [binaryLoop] at h
    simp only [binaryKeys]
    split at h
    next ha =>
      split at h
      next hb =>
        split at h
        next hc =>
          simp only [Bool.and_eq_true, decide_eq_true_eq]
          exact ⟨⟨⟨ha, hb⟩, hc⟩, ih _ h⟩
        next => exact absurd h (by simp)
      next => exact absurd h (by simp)
    next => exact absurd h (by simp)

/-- C8. For every dataset iteration of `yield_checks`, the check named
`check_predict_proba_one_binary` — whose body asserts the prediction has
exactly the two keys `True` and `False` — is yielded exactly when the
unwrapped model is not a `MultiClassifier` (so also for regressors and any
other non-classifier), while the check named `check_predict_proba_one` is
yielded exactly when the unwrapped model is a `Classifier`. -/
theorem yield_checks_binary_condition (ops : Ops X Y K) (model : Model)
    (dsl : List (X × Y)) (classifier : Model) (ds2 : List (X × Y))
    (h : check_predict_proba_one_binary ops classifier ds2 = .ok ()) :
    ((checksForDataset ops model dsl).any
        (fun c => c.name = "check_predict_proba_one_binary")
      = !(guess_model model).isMultiClassifier)
    ∧ ((checksForDataset ops model dsl).any
        (fun c => c.name = "check_predict_proba_one")
      = (guess_model model).isClassifier)
    ∧ binaryKeys ops classifier ds2 = true := by
  refine ⟨?_, ?_, binaryLoop_ok_keys ops ds2 classifier h⟩
  all_goals
    simp only [checksForDataset, with_dataset, fitOneMethod, picklingMethod,
      debugOneMethod, probaOneMethod, probaOneBinaryMethod]
    rcases hd : (model.hasDebugOne : Bool) with _ | _ <;>
      rcases hc : ((guess_model model).isClassifier : Bool) with _ | _ <;>
        rcases hmc : ((guess_model model).isMultiClassifier : Bool) with _ | _ <;>
          simp

theorem yield_checks_binary_condition_witness :
    ((checksForDataset egOps egModel [(1, 2)]).any
        (fun c => c.name = "check_predict_proba_one_binary")
      = !(guess_model egModel).isMultiClassifier)
    ∧ ((checksForDataset egOps egModel [(1, 2)]).any
        (fun c => c.name = "check_predict_proba_one")
      = (guess_model egModel).isClassifier)
    ∧ binaryKeys egOps egModel [(1, 2)] = true :=
  yield_checks_binary_condition egOps egModel [(1, 2)] egModel [(1, 2)] rfl

/-- C9. String representations: `check_repr` passes exactly when
`repr(model)` is a string, `check_str` exactly when `str(model)` is a
string, `check_get_tags` exactly when `model._get_tags()` is a dict, and
these three checks are the first three checks `yield_checks` yields for
every model, before and independently of any dataset. -/
theorem check_repr_str_get_tags (ops : Ops X Y K) (model : Model) :
    (check_repr ops model = .ok () ↔ (ops.reprObj model).isStr = true)
    ∧ (check_str ops model = .ok () ↔ (ops.strObj model).isStr = true)
    ∧ (check_get_tags ops model = .ok () ↔ (ops.getTagsObj model).isDict = true)
    ∧ (yield_checks ops model).take 3 = [ncRepr ops, ncStr ops, ncGetTags ops] := by
  refine ⟨?_, ?_, ?_, rfl⟩
  · simp only [check_repr]
    split
    next hs => simp [hs]
    next hs => simp [hs]
  · simp only [check_str]
    split
    next hs => simp [hs]
    next hs => simp [hs]
  · simp only [check_get_tags]
    split
    next hs => simp [hs]
    next hs => simp [hs]

/-- C10. Framing of `check_estimator` at the object level: each check runs
on a freshly allocated deep copy of the caller's model object, every address
handed to a check differs from the caller's object's address, each copy is
created from the caller's unchanged model value, and the caller's object is
left unmodified once all checks have run. -/
theorem check_estimator_fresh_copies (defaultTags : Tags)
    (cs : List (Model → Model)) (heap : List Model) (addr : Nat)
    (h : addr < heap.length) :
    (checkEstimatorObjects defaultTags cs heap addr).1.get? addr = heap.get? addr
    ∧ (∀ a ∈ (checkEstimatorObjects defaultTags cs heap addr).2.1, a ≠ addr)
    ∧ (checkEstimatorObjects defaultTags cs heap addr).2.2
      = List.replicate cs.length (heap.getD addr (Model.plain defaultTags)) := by
  induction cs generalizing heap with
  | nil => simp [checkEstimatorObjects]
  | cons c rest ih =>
    have hlen : addr
        < (heap ++ [c (heap.getD addr (Model.plain defaultTags))]).length := by
      simp only [List.length_append, List.length_singleton]
      omega
    obtain ⟨ih1, ih2, ih3⟩ := ih _ hlen
    have hget : (heap ++ [c (heap.getD addr (Model.plain defaultTags))]).get? addr
        = heap.get? addr := List.get?_append h
    have hgetD : (heap ++ [c (heap.getD addr (Model.plain defaultTags))]).getD addr
          (Model.plain defaultTags)
        = heap.getD addr (Model.plain defaultTags) :=
      List.getD_append _ _ _ _ h
    refine ⟨?_, ?_, ?_⟩
    · simpa only [checkEstimatorObjects, hget] using ih1
    · intro a ha
      simp only [checkEstimatorObjects, List.mem_cons] at ha
      rcases ha with ha | ha
      · omega
      · exact ih2 a ha
    · simp only [checkEstimatorObjects, List.length_cons, List.replicate_succ]
      rw [ih3, hgetD]

theorem check_estimator_fresh_copies_witness :
    (checkEstimatorObjects egTags [fun m => m] [egModel] 0).1.get? 0
      = [egModel].get? 0
    ∧ (∀ a ∈ (checkEstimatorObjects egTags [fun m => m] [egModel] 0).2.1, a ≠ 0)
    ∧ (checkEstimatorObjects egTags [fun m => m] [egModel] 0).2.2
      = List.replicate 1 ([egModel].getD 0 (Model.plain egTags)) :=
  check_estimator_fresh_copies egTags [fun m => m] [egModel] 0 (by decide)

theorem check_pickling_roundtrip_witness :
    egOps.isInstance (egOps.pickleRoundTrip egModel) (egOps.classOf egModel) = true
    ∧ egOps.isInstance (egOps.pickleRoundTrip (picklingLoop egOps egModel [(1, 2)]))
        (egOps.classOf (picklingLoop egOps egModel [(1, 2)])) = true :=
  check_pickling_roundtrip egOps egModel [(1, 2)] rfl

end EstimatorChecks
